import Mathlib

/-!
# Verification of the Minecraft Coordinates Manager data layer

A shallow embedding of `src/minecraft_coords_manager.py` (a Tkinter CRUD
application over an in-memory JSON-like dictionary) and proofs about it.

Modelling conventions, stated once here:

* Python values that can live in the dataset (the result of `json.load`
  and the values the application builds) are modelled by `PyVal`.
  Python `dict`s are association lists in insertion order with the usual
  Python semantics (unique keys are an invariant of real dicts; lemmas
  that need it take a `Nodup` hypothesis on the key list).
* Python `float`s are modelled exactly: a finite float is a rational,
  plus `inf`/`nan` constructors.  IEEE-754 rounding and overflow are not
  modelled; every concrete value appearing in the claims (`1.5`, `64`,
  `200`, ...) is exactly representable, so this does not affect any
  claim settled here.
* Text is modelled over the ASCII fragment: `str.isdigit` is "all chars
  in '0'..'9'", `str.strip` removes ASCII whitespace.  Non-ASCII digit
  and space characters behave differently in Python but appear in no
  claim.
* The GUI widgets are replaced by explicit parameters: the selected
  profile is an `Option String`, the selected tree row an `Option Int`,
  dialog answers are `Bool`s, entry fields are `String`s.  Each handler
  becomes a pure function from the dataset and those inputs to an
  `Outcome` (which dialog/exception the handler ends in) and the
  resulting dataset.  The write-through `save_data` call on the success
  paths only persists the returned dataset and does not change it, so it
  is modelled separately (`save_data` on a file-system state).
* The spec's error labels name the code's failure branches, which in the
  source are message boxes or silent returns: `DuplicateName` is the
  "Profile already exists." box, `EmptyName` is "Give the coordinate a
  name.", `InvalidNumber` is "X, Y and Z must be numbers.",
  `IndexOutOfRange` is "Invalid selection index.", `NotFound` is the
  `if not profile: return` guard (an info box in `save_seed`/`add_coord`,
  a silent return in `delete_selected_coord`).  Uncaught Python
  exceptions (e.g. a `KeyError` on a malformed dataset) are `exn`.
-/

/-- A Python float: a finite value (modelled exactly as a rational),
an infinity, or a NaN. -/
inductive PyFloat where
  | finite (q : ℚ)
  | inf (neg : Bool)
  | nan
  deriving DecidableEq, Repr

/-- A Python value as stored in the application's dataset: the image of
JSON plus the values the handlers construct.  Dicts are association
lists in insertion order. -/
inductive PyVal where
  | pynone
  | pybool (b : Bool)
  | pyint (n : ℤ)
  | pyfloat (f : PyFloat)
  | pystr (s : String)
  | pylist (xs : List PyVal)
  | pydict (entries : List (String × PyVal))
  deriving Repr

/-- The application's dataset `self.data`: a Python dict from profile
name to profile value. -/
abbrev Dict := List (String × PyVal)

/-- Python `d[k]` / `d.get(k)`: the value at key `k`.  Real dicts have
unique keys, so "first match" agrees with Python. -/
def dictLookup (d : Dict) (k : String) : Option PyVal :=
  match d with
  | [] => none
  | (k1, v1) :: t => if k1 = k then some v1 else dictLookup t k

/-- Python `d[k] = v`: overwrite the value in place if the key is
present, else append the new key (dicts keep insertion order). -/
def dictSet (d : Dict) (k : String) (v : PyVal) : Dict :=
  match d with
  | [] => [(k, v)]
  | (k1, v1) :: t => if k1 = k then (k1, v) :: t else (k1, v1) :: dictSet t k v

/-- Python `d.update(nd)`: set each of `nd`'s entries in order. -/
def dictUpdate (d nd : Dict) : Dict :=
  nd.foldl (fun acc kv => dictSet acc kv.1 kv.2) d

/-- Python `del d[k]`: remove the entry with key `k`. -/
def dictDel (d : Dict) (k : String) : Dict :=
  match d with
  | [] => []
  | (k1, v1) :: t => if k1 = k then t else (k1, v1) :: dictDel t k

/-! ## Text helpers: `str.strip`, `str.isdigit`, `int`, `float` -/

/-- ASCII whitespace stripped by Python's `str.strip()`. -/
def isPySpace (c : Char) : Bool :=
  c = ' ' || c = '\t' || c = '\n' || c = '\x0d' || c = '\x0b' || c = '\x0c'

/-- Python `s.strip()` over ASCII whitespace. -/
def pyStrip (s : String) : String :=
  String.mk (((s.toList.dropWhile isPySpace).reverse.dropWhile isPySpace).reverse)

/-- An ASCII decimal digit. -/
def isDigitChar (c : Char) : Bool :=
  '0' ≤ c && c ≤ '9'

/-- The numeric value of an ASCII digit. -/
def digitVal (c : Char) : ℕ :=
  c.toNat - 48

/-- Python `s.isdigit()` (ASCII fragment): nonempty and all digits. -/
def pyIsdigit (cs : List Char) : Bool :=
  !cs.isEmpty && cs.all isDigitChar

/-- The number with the given decimal digits. -/
def digitsToNat (ds : List ℕ) : ℕ :=
  ds.foldl (fun a d => a * 10 + d) 0

/-- Python `int(s)` on the strings the guard lets through: an optional
leading minus sign followed by ASCII digits. -/
def strToInt (s : String) : ℤ :=
  match s.toList with
  | '-' :: t => -(digitsToNat (t.map digitVal) : ℤ)
  | t => (digitsToNat (t.map digitVal) : ℤ)

/-- Continuation of a float digit-part after its first digit: digits
with single underscores allowed between digits (Python 3.6+). -/
def dpAux : List Char → Option (List ℕ)
  | [] => some []
  | c :: rest =>
    if c = '_' then
      match rest with
      | [] => none
      | d :: rest2 => if isDigitChar d then (dpAux rest2).map (digitVal d :: ·) else none
    else if isDigitChar c then (dpAux rest).map (digitVal c :: ·) else none

/-- A `digitpart` of the CPython float grammar: nonempty digits with
single underscores allowed between digits.  Returns the digit values. -/
def parseDigitpart : List Char → Option (List ℕ)
  | [] => none
  | c :: rest => if isDigitChar c then (dpAux rest).map (digitVal c :: ·) else none

/-- Split a character list at the first character satisfying `p`
(separator kept at the head of the second component). -/
def breakOn (p : Char → Bool) : List Char → List Char × List Char
  | [] => ([], [])
  | c :: cs =>
    if p c then ([], c :: cs)
    else
      let r := breakOn p cs
      (c :: r.1, r.2)

/-- An optionally signed `digitpart` (the exponent of a float literal). -/
def parseSignedDigits (cs : List Char) : Option ℤ :=
  match cs with
  | '-' :: t => (parseDigitpart t).map (fun ds => -(digitsToNat ds : ℤ))
  | '+' :: t => (parseDigitpart t).map (fun ds => (digitsToNat ds : ℤ))
  | t => (parseDigitpart t).map (fun ds => (digitsToNat ds : ℤ))

/-- The unsigned numeric part of the CPython float grammar (input
already lowercased): `digitpart`, `digitpart '.' digitpart?`,
`'.' digitpart`, each with an optional `'e' signed-digitpart`
exponent.  Returns the exact rational value. -/
def parseNumericChars (cs : List Char) : Option ℚ :=
  let me := breakOn (fun c => c = 'e') cs
  let eo : Option ℤ :=
    match me.2 with
    | [] => some 0
    | _ :: t => parseSignedDigits t
  match eo with
  | none => none
  | some e =>
    let mf := breakOn (fun c => c = '.') me.1
    match mf.2 with
    | [] => (parseDigitpart mf.1).map (fun ds => (digitsToNat ds : ℚ) * 10 ^ e)
    | _ :: fp =>
      match mf.1, fp with
      | [], [] => none
      | [], fp =>
        (parseDigitpart fp).map
          (fun ds => (digitsToNat ds : ℚ) / 10 ^ ds.length * 10 ^ e)
      | ip, [] => (parseDigitpart ip).map (fun ds => (digitsToNat ds : ℚ) * 10 ^ e)
      | ip, fp =>
        match parseDigitpart ip, parseDigitpart fp with
        | some d1, some d2 =>
          some (((digitsToNat d1 : ℚ) + (digitsToNat d2 : ℚ) / 10 ^ d2.length) * 10 ^ e)
        | _, _ => none

/-- Python `float(s)` on an already-stripped string (ASCII fragment):
optional sign, then `inf`/`infinity`/`nan` (case-insensitive) or the
numeric grammar.  `none` models the `ValueError` branch. -/
def pyFloatOfString (s : String) : Option PyFloat :=
  let cs := s.toList.map Char.toLower
  let sr : Bool × List Char :=
    match cs with
    | [] => (false, [])
    | c :: t => if c = '-' then (true, t) else if c = '+' then (false, t) else (false, c :: t)
  if sr.2 = ['i', 'n', 'f'] ∨ sr.2 = ['i', 'n', 'f', 'i', 'n', 'i', 't', 'y'] then
    some (.inf sr.1)
  else if sr.2 = ['n', 'a', 'n'] then
    some .nan
  else
    (parseNumericChars sr.2).map (fun q => .finite (if sr.1 then -q else q))

/-- The numeric parse of `add_coord` for one field (already stripped):
`int(x) if x.isdigit() or (x.startswith("-") and x[1:].isdigit()) else float(x)`.
`none` models the exception caught by the `except` clause. -/
def parseNum (s : String) : Option PyVal :=
  if pyIsdigit s.toList || (s.toList.head? = some '-' && pyIsdigit s.toList.tail) then
    some (.pyint (strToInt s))
  else
    (pyFloatOfString s).map .pyfloat

/-! ## The handlers of `CoordManagerApp`, as pure functions -/

/-- Which branch a handler ended in: either `ok` (the mutation ran and
was saved) or one of the failure branches described in the module
docstring. -/
inductive Outcome where
  | ok
  | cancelled
  | duplicateName
  | notFound
  | noSelection
  | emptyName
  | invalidNumber
  | indexOutOfRange
  | notConfirmed
  | invalidDocument
  | loadError
  | exn
  deriving DecidableEq, Repr

/-- The fresh profile inserted by `add_profile`: `{"seed": "", "coords": []}`. -/
def emptyProfile : PyVal :=
  .pydict [("seed", .pystr ""), ("coords", .pylist [])]

/-- `CoordManagerApp.add_profile`.  `input` is the `askstring` result
(`none` on cancel).  The source checks `if not name` BEFORE stripping,
then strips, then checks membership, then inserts. -/
def add_profile (data : Dict) (input : Option String) : Outcome × Dict :=
  match input with
  | none => (.cancelled, data)
  | some name0 =>
    if name0 = "" then (.cancelled, data)
    else
      let name := pyStrip name0
      if (dictLookup data name).isSome then (.duplicateName, data)
      else (.ok, dictSet data name emptyProfile)

/-- Python `s.lower()` (ASCII fragment). -/
def strLower (s : String) : List Char :=
  s.toList.map Char.toLower

/-- Lexicographic comparison of character lists by code point, the
order Python uses on the lowered strings. -/
def charsLe : List Char → List Char → Bool
  | [], _ => true
  | _ :: _, [] => false
  | a :: as, b :: bs => a < b || (a = b && charsLe as bs)

/-- `_refresh_profile_listbox`'s display order:
`sorted(self.data.keys(), key=lambda s: s.lower())` (Python's stable
sort, modelled by `mergeSort`). -/
def listProfiles (data : Dict) : List String :=
  (data.map Prod.fst).mergeSort (fun a b => charsLe (strLower a) (strLower b))

/-- `CoordManagerApp.save_seed`.  `profileSel` is the listbox
selection; the seed entry's text is stripped and stored. -/
def save_seed (data : Dict) (profileSel : Option String) (seedInput : String) :
    Outcome × Dict :=
  match profileSel with
  | none => (.notFound, data)
  | some p =>
    match dictLookup data p with
    | some (.pydict es) =>
      (.ok, dictSet data p (.pydict (dictSet es "seed" (.pystr (pyStrip seedInput)))))
    | _ => (.exn, data)

/-- The coordinate dict `add_coord` builds:
`{"name": name, "x": x_val, "y": y_val, "z": z_val}`. -/
def newCoord (name : String) (xv yv zv : PyVal) : PyVal :=
  .pydict [("name", .pystr name), ("x", xv), ("y", yv), ("z", zv)]

/-- `CoordManagerApp.add_coord`.  The entry fields are stripped; an
empty name errors before the numeric parse; a parse failure on any of
x, y, z errors; otherwise the coordinate dict is appended to
`data[profile]["coords"]` (a missing profile or a malformed profile
value raises in Python, modelled as `exn`, dataset unchanged). -/
def add_coord (data : Dict) (profileSel : Option String)
    (nameIn xIn yIn zIn : String) : Outcome × Dict :=
  match profileSel with
  | none => (.notFound, data)
  | some p =>
    let name := pyStrip nameIn
    if name = "" then (.emptyName, data)
    else
      match parseNum (pyStrip xIn), parseNum (pyStrip yIn), parseNum (pyStrip zIn) with
      | some xv, some yv, some zv =>
        match dictLookup data p with
        | some (.pydict es) =>
          match dictLookup es "coords" with
          | some (.pylist cs) =>
            let coord : PyVal := newCoord name xv yv zv
            (.ok, dictSet data p (.pydict (dictSet es "coords" (.pylist (cs ++ [coord])))))
          | _ => (.exn, data)
        | _ => (.exn, data)
      | _, _, _ => (.invalidNumber, data)

/-- Python `list.pop(i)` for `0 ≤ i < len`: remove the element at
index `i` (this is `List.eraseIdx`). -/
def listPop (xs : List PyVal) (i : ℕ) : List PyVal :=
  xs.eraseIdx i

/-- `CoordManagerApp.delete_selected_coord`.  `sel` is the tree
selection (the row index as an `Int`); `confirm` the `askyesno`
answer.  The source fetches `data[profile]["coords"]` first (raising
on a missing/malformed profile), then bounds-checks the index, then
builds the confirmation text from `coords[idx].get('name')` (raising
if that element has no `.get`), then asks, then pops. -/
def delete_selected_coord (data : Dict) (profileSel : Option String)
    (sel : Option ℤ) (confirm : Bool) : Outcome × Dict :=
  match profileSel with
  | none => (.notFound, data)
  | some p =>
    match sel with
    | none => (.noSelection, data)
    | some idx =>
      match dictLookup data p with
      | some (.pydict es) =>
        match dictLookup es "coords" with
        | some (.pylist cs) =>
          if idx < 0 ∨ (cs.length : ℤ) ≤ idx then (.indexOutOfRange, data)
          else
            match cs.get? idx.toNat with
            | some (.pydict _) =>
              if confirm then
                (.ok, dictSet data p (.pydict (dictSet es "coords" (.pylist (listPop cs idx.toNat)))))
              else (.notConfirmed, data)
            | _ => (.exn, data)
        | _ => (.exn, data)
      | _ => (.exn, data)

/-- `CoordManagerApp.import_json`.  `doc` is the parsed content of the
chosen file; `mergeAnswer` the `askyesno` answer (only consulted when
the current dataset is nonempty, matching `if self.data and ...`). -/
def import_json (data : Dict) (doc : PyVal) (mergeAnswer : Bool) : Outcome × Dict :=
  match doc with
  | .pydict nd =>
    if !data.isEmpty && mergeAnswer then (.ok, dictUpdate data nd)
    else (.ok, nd)
  | _ => (.invalidDocument, data)

/-! ## The storage adapter (`load_data` / `save_data`)

The file system is modelled at the level of the parsed JSON document:
a path maps to "missing", "exists but not valid JSON text", or a
parsed `PyVal`.  Python's `json` text codec round-trips integers and
finite floats exactly (`repr`-based float formatting), which this
abstraction builds in. -/

/-- What a path holds. -/
inductive FileContent where
  | missing
  | invalidText
  | json (v : PyVal)

/-- The file-system state. -/
def FS : Type := String → FileContent

/-- `save_data`: `json.dump(data, f)` at `path`. -/
def save_data (fs : FS) (data : PyVal) (path : String) : FS :=
  fun p => if p = path then .json data else fs p

/-- `load_data`: a missing path yields `{}` with no warning; unparsable
text or a non-dict top level warns ("Load error") and yields `{}`;
otherwise the loaded dict is returned. -/
def load_data (fs : FS) (path : String) : Outcome × PyVal :=
  match fs path with
  | .missing => (.ok, .pydict [])
  | .invalidText => (.loadError, .pydict [])
  | .json v =>
    match v with
    | .pydict es => (.ok, .pydict es)
    | _ => (.loadError, .pydict [])

/-! ## Association-list (Python dict) lemmas -/

theorem dictLookup_dictSet_self (d : Dict) (k : String) (v : PyVal) :
    dictLookup (dictSet d k v) k = some v := by
  induction d with
  | nil => simp [dictSet, dictLookup]
  | cons h t ih =>
    obtain ⟨k1, v1⟩ := h
    by_cases hk : k1 = k <;> simp [dictSet, dictLookup, hk, ih]

theorem dictLookup_dictSet_ne (d : Dict) (k : String) (v : PyVal) (k1 : String)
    (h : k1 ≠ k) : dictLookup (dictSet d k v) k1 = dictLookup d k1 := by
  induction d with
  | nil =>
    have hne : ¬k = k1 := fun hh => h hh.symm
    simp [dictSet, dictLookup, hne]
  | cons hd t ih =>
    obtain ⟨k2, v2⟩ := hd
    by_cases hk : k2 = k
    · subst hk
      have hne : ¬k2 = k1 := fun hh => h hh.symm
      simp [dictSet, dictLookup, hne]
    · by_cases hk1 : k2 = k1
      · subst hk1
        simp [dictSet, dictLookup, hk]
      · simp [dictSet, dictLookup, hk, hk1, ih]

theorem dictLookup_eq_none_iff (d : Dict) (k : String) :
    dictLookup d k = none ↔ k ∉ d.map Prod.fst := by
  induction d with
  | nil => simp [dictLookup]
  | cons h t ih =>
    obtain ⟨k1, v1⟩ := h
    by_cases hk : k1 = k
    · subst hk
      simp [dictLookup]
    · have hk1 : ¬k = k1 := fun hh => hk hh.symm
      simp [dictLookup, hk, hk1, ih]

theorem dictSet_of_lookup_none (d : Dict) (k : String) (v : PyVal)
    (h : dictLookup d k = none) : dictSet d k v = d ++ [(k, v)] := by
  induction d with
  | nil => simp [dictSet]
  | cons hd t ih =>
    obtain ⟨k1, v1⟩ := hd
    by_cases hk : k1 = k
    · simp [dictLookup, hk] at h
    · simp [dictLookup, hk] at h
      simp [dictSet, hk, ih h]

theorem mem_of_mem_dictSet (d : Dict) (k : String) (v : PyVal)
    (x : String × PyVal) (h : x ∈ dictSet d k v) : x ∈ d ∨ x = (k, v) := by
  induction d with
  | nil => simpa [dictSet] using h
  | cons hd t ih =>
    obtain ⟨k1, v1⟩ := hd
    by_cases hk : k1 = k
    · simp [dictSet, hk] at h
      rcases h with h | h
      · right; exact h
      · left; simp [h]
    · simp [dictSet, hk] at h
      rcases h with h | h
      · left; simp [h]
      · rcases ih h with h1 | h1
        · left; simp [h1]
        · right; exact h1

theorem dictLookup_mem (d : Dict) (k : String) (v : PyVal)
    (h : dictLookup d k = some v) : (k, v) ∈ d := by
  induction d with
  | nil => simp [dictLookup] at h
  | cons hd t ih =>
    obtain ⟨k1, v1⟩ := hd
    by_cases hk : k1 = k
    · subst hk
      simp [dictLookup] at h
      simp [h]
    · simp [dictLookup, hk] at h
      simp [ih h]

theorem dictUpdate_nil (d : Dict) : dictUpdate d [] = d := rfl

theorem dictUpdate_cons (d : Dict) (k : String) (v : PyVal) (t : Dict) :
    dictUpdate d ((k, v) :: t) = dictUpdate (dictSet d k v) t := rfl

/-- Looking up a key after `d.update(nd)`: the imported entry wins when
present, otherwise the existing one is preserved.  Needs unique keys in
`nd` (a real dict always has them). -/
theorem dictLookup_dictUpdate (d nd : Dict) (k : String)
    (hnd : (nd.map Prod.fst).Nodup) :
    dictLookup (dictUpdate d nd) k = (dictLookup nd k).or (dictLookup d k) := by
  induction nd generalizing d with
  | nil => simp [dictUpdate_nil, dictLookup]
  | cons hd t ih =>
    obtain ⟨k1, v1⟩ := hd
    simp only [List.map_cons, List.nodup_cons] at hnd
    rw [dictUpdate_cons]
    rw [ih (dictSet d k1 v1) hnd.2]
    by_cases hk : k1 = k
    · subst hk
      have ht : dictLookup t k1 = none := (dictLookup_eq_none_iff t k1).mpr hnd.1
      simp [dictLookup, ht, dictLookup_dictSet_self]
    · simp [dictLookup, hk, dictLookup_dictSet_ne d k1 v1 k (fun hh => hk hh.symm)]

/-! ## Lemmas about the numeric parse -/

theorem toLower_of_digit (c : Char) (h : isDigitChar c = true) :
    Char.toLower c = c := by
  simp only [isDigitChar, Bool.and_eq_true, decide_eq_true_eq] at h
  unfold Char.toLower
  have h2 : c.toNat ≤ 57 := by
    have hh := h.2
    simp only [Char.le_def] at hh
    exact hh
  rw [if_neg]
  omega

theorem digit_ne_special (c : Char) (h : isDigitChar c = true) :
    c ≠ '-' ∧ c ≠ '+' ∧ c ≠ '.' ∧ c ≠ '_' ∧ c ≠ 'e' ∧ c ≠ 'i' ∧ c ≠ 'n' := by
  refine ⟨?_, ?_, ?_, ?_, ?_, ?_, ?_⟩ <;>
    (intro hh; rw [hh] at h; exact absurd h (by decide))

theorem dpAux_all_digits (l : List Char) (h : ∀ c ∈ l, isDigitChar c = true) :
    dpAux l = some (l.map digitVal) := by
  induction l with
  | nil => rfl
  | cons c t ih =>
    have hc := h c (List.mem_cons_self c t)
    have hcu : ¬c = '_' := (digit_ne_special c hc).2.2.2.1
    rw [dpAux.eq_def]
    simp [hcu, hc, ih (fun d hd => h d (List.mem_cons_of_mem c hd))]

theorem parseDigitpart_all_digits (l : List Char) (hne : l ≠ [])
    (h : ∀ c ∈ l, isDigitChar c = true) :
    parseDigitpart l = some (l.map digitVal) := by
  cases l with
  | nil => exact absurd rfl hne
  | cons c t =>
    have hc := h c (List.mem_cons_self c t)
    simp [parseDigitpart, hc, dpAux_all_digits t (fun d hd => h d (List.mem_cons_of_mem c hd))]

theorem breakOn_of_all_false (p : Char → Bool) (l : List Char)
    (h : ∀ c ∈ l, p c = false) : breakOn p l = (l, []) := by
  induction l with
  | nil => rfl
  | cons c t ih =>
    have hc := h c (List.mem_cons_self c t)
    simp [breakOn, hc, ih (fun d hd => h d (List.mem_cons_of_mem c hd))]

theorem breakOn_append_sep (p : Char → Bool) (a : List Char) (sep : Char)
    (b : List Char) (ha : ∀ c ∈ a, p c = false) (hsep : p sep = true) :
    breakOn p (a ++ sep :: b) = (a, sep :: b) := by
  induction a with
  | nil => simp [breakOn, hsep]
  | cons c t ih =>
    have hc := ha c (List.mem_cons_self c t)
    simp [breakOn, hc, ih (fun d hd => ha d (List.mem_cons_of_mem c hd))]

theorem pyIsdigit_eq_false_of_mem (cs : List Char) (c : Char) (hc : c ∈ cs)
    (h : isDigitChar c = false) : pyIsdigit cs = false := by
  cases hall : cs.all isDigitChar
  · simp [pyIsdigit, hall]
  · have hd := List.all_eq_true.mp hall c hc
    rw [h] at hd
    exact Bool.noConfusion hd

theorem pyIsdigit_iff (cs : List Char) :
    pyIsdigit cs = true ↔ cs ≠ [] ∧ ∀ c ∈ cs, isDigitChar c = true := by
  cases cs with
  | nil => simp [pyIsdigit]
  | cons c t => simp [pyIsdigit, List.all_eq_true]

/-- The spec's integral shape: "an optional leading minus sign followed
only by digits" (with at least one digit). -/
def OptMinusDigits (s : String) : Prop :=
  (s.toList ≠ [] ∧ ∀ c ∈ s.toList, isDigitChar c = true) ∨
  (∃ t, s.toList = '-' :: t ∧ t ≠ [] ∧ ∀ c ∈ t, isDigitChar c = true)

/-- The `int`-vs-`float` guard of `add_coord` recognises exactly the
spec's integral shape. -/
theorem parseNum_guard_iff (s : String) :
    (pyIsdigit s.toList || (s.toList.head? = some '-' && pyIsdigit s.toList.tail)) = true
      ↔ OptMinusDigits s := by
  constructor
  · intro hg
    rcases Bool.or_eq_true_iff.mp hg with h1 | h2
    · exact Or.inl ((pyIsdigit_iff _).mp h1)
    · rcases Bool.and_eq_true_iff.mp h2 with ⟨hh, ht⟩
      cases hcs : s.toList with
      | nil => rw [hcs] at hh; exact absurd hh (by simp)
      | cons c t =>
        rw [hcs] at hh ht
        simp only [List.head?_cons, Option.some.injEq, decide_eq_true_eq] at hh
        simp only [List.tail_cons] at ht
        exact Or.inr ⟨t, by rw [hcs, hh], ((pyIsdigit_iff t).mp ht).1,
          ((pyIsdigit_iff t).mp ht).2⟩
  · intro ho
    rcases ho with ⟨hne, hall⟩ | ⟨t, hcs, htne, hall⟩
    · exact Bool.or_eq_true_iff.mpr (Or.inl ((pyIsdigit_iff _).mpr ⟨hne, hall⟩))
    · refine Bool.or_eq_true_iff.mpr (Or.inr (Bool.and_eq_true_iff.mpr ⟨?_, ?_⟩))
      · rw [hcs]; rfl
      · rw [hcs]
        simpa using (pyIsdigit_iff t).mpr ⟨htne, hall⟩

/-- Is a stored value a Python `int`? -/
def isIntVal : PyVal → Bool
  | .pyint _ => true
  | _ => false

/-- Any value the field parse produces is an `int` exactly when the
field text has the integral shape (otherwise it is a `float`). -/
theorem parseNum_int_iff (s : String) (v : PyVal) (h : parseNum s = some v) :
    isIntVal v = true ↔ OptMinusDigits s := by
  by_cases hg :
      (pyIsdigit s.toList || (s.toList.head? = some '-' && pyIsdigit s.toList.tail)) = true
  · rw [parseNum, if_pos hg] at h
    obtain rfl : PyVal.pyint (strToInt s) = v := Option.some.inj h
    simpa [isIntVal] using (parseNum_guard_iff s).mp hg
  · rw [parseNum, if_neg hg] at h
    rcases Option.map_eq_some'.mp h with ⟨f, _, rfl⟩
    constructor
    · intro hi; exact absurd hi (by simp [isIntVal])
    · intro ho; exact absurd ((parseNum_guard_iff s).mpr ho) hg

/-- The parse accepts every plain (all-digits) integer text. -/
theorem parseNum_digits (s : String) (h : pyIsdigit s.toList = true) :
    parseNum s = some (.pyint (strToInt s)) := by
  rw [parseNum, if_pos]
  rw [h]
  rfl

/-- The parse accepts every negative integer text. -/
theorem parseNum_neg_digits (s : String) (t : List Char) (hs : s.toList = '-' :: t)
    (h : pyIsdigit t = true) : parseNum s = some (.pyint (strToInt s)) := by
  rw [parseNum, if_pos]
  rw [hs]
  simp [h]

theorem parseNumericChars_decimal (d1 d2 : List Char) (h1 : d1 ≠ []) (h2 : d2 ≠ [])
    (hd1 : ∀ c ∈ d1, isDigitChar c = true) (hd2 : ∀ c ∈ d2, isDigitChar c = true) :
    parseNumericChars (d1 ++ '.' :: d2) =
      some (((digitsToNat (d1.map digitVal) : ℚ) +
        (digitsToNat (d2.map digitVal) : ℚ) / 10 ^ (d2.map digitVal).length) * 10 ^ (0 : ℤ)) := by
  have hall : ∀ c ∈ d1 ++ '.' :: d2, decide (c = 'e') = false := by
    intro c hc
    rcases List.mem_append.mp hc with hc1 | hc2
    · simpa using (digit_ne_special c (hd1 c hc1)).2.2.2.2.1
    · rcases List.mem_cons.mp hc2 with hdot | hc2
      · rw [hdot]; rfl
      · simpa using (digit_ne_special c (hd2 c hc2)).2.2.2.2.1
  have hbe : breakOn (fun c => decide (c = 'e')) (d1 ++ '.' :: d2) = (d1 ++ '.' :: d2, []) :=
    breakOn_of_all_false _ _ hall
  have hbd : breakOn (fun c => decide (c = '.')) (d1 ++ '.' :: d2) = (d1, '.' :: d2) := by
    refine breakOn_append_sep _ d1 '.' d2 ?_ (by rfl)
    intro c hc
    simpa using (digit_ne_special c (hd1 c hc)).2.2.1
  rw [parseNumericChars]
  rw [hbe]
  simp only
  rw [hbd]
  simp only
  cases d1 with
  | nil => exact absurd rfl h1
  | cons c1 t1 =>
    cases d2 with
    | nil => exact absurd rfl h2
    | cons c2 t2 =>
      have e1 := parseDigitpart_all_digits (c1 :: t1) (by simp) hd1
      have e2 := parseDigitpart_all_digits (c2 :: t2) (by simp) hd2
      simp [e1, e2]

theorem map_toLower_fix (l : List Char)
    (h : ∀ c ∈ l, isDigitChar c = true ∨ c = '.' ∨ c = '-') :
    l.map Char.toLower = l := by
  refine (List.map_congr_left ?_).trans (List.map_id l)
  intro c hc
  rcases h c hc with hd | hd | hd
  · exact toLower_of_digit c hd
  · rw [hd]; decide
  · rw [hd]; decide


/-- The exact value of a decimal text's fractional parse. -/
def decimalVal (d1 d2 : List Char) : ℚ :=
  ((digitsToNat (d1.map digitVal) : ℚ) +
    (digitsToNat (d2.map digitVal) : ℚ) / 10 ^ (d2.map digitVal).length) * 10 ^ (0 : ℤ)

/-- `float` accepts every unsigned decimal text `digits.digits`. -/
theorem pyFloatOfString_decimal_pos (c1 : Char) (t1 d2 : List Char) (h2 : d2 ≠ [])
    (hd1 : ∀ c ∈ c1 :: t1, isDigitChar c = true) (hd2 : ∀ c ∈ d2, isDigitChar c = true) :
    pyFloatOfString (String.mk (c1 :: (t1 ++ '.' :: d2))) =
      some (.finite (decimalVal (c1 :: t1) d2)) := by
  have hc1 := hd1 c1 (List.mem_cons_self c1 t1)
  have hcm : ¬c1 = '-' := (digit_ne_special c1 hc1).1
  have hcp : ¬c1 = '+' := (digit_ne_special c1 hc1).2.1
  have hmap : (c1 :: (t1 ++ '.' :: d2)).map Char.toLower = c1 :: (t1 ++ '.' :: d2) := by
    refine map_toLower_fix _ ?_
    intro c hc
    rcases List.mem_cons.mp hc with hh | hh
    · exact Or.inl (hh ▸ hc1)
    · rcases List.mem_append.mp hh with hh | hh
      · exact Or.inl (hd1 c (List.mem_cons_of_mem c1 hh))
      · rcases List.mem_cons.mp hh with hh | hh
        · exact Or.inr (Or.inl hh)
        · exact Or.inl (hd2 c hh)
  have hne_inf : ¬(c1 :: (t1 ++ '.' :: d2) = ['i', 'n', 'f'] ∨
      c1 :: (t1 ++ '.' :: d2) = ['i', 'n', 'f', 'i', 'n', 'i', 't', 'y']) := by
    intro hh
    rcases hh with hh | hh <;>
    · rw [List.cons.injEq] at hh
      rw [hh.1] at hc1
      exact absurd hc1 (by decide)
  have hne_nan : ¬c1 :: (t1 ++ '.' :: d2) = ['n', 'a', 'n'] := by
    intro hh
    rw [List.cons.injEq] at hh
    rw [hh.1] at hc1
    exact absurd hc1 (by decide)
  have hpn := parseNumericChars_decimal (c1 :: t1) d2 (by simp) h2 hd1 hd2
  rw [List.cons_append] at hpn
  unfold pyFloatOfString
  rw [show (String.mk (c1 :: (t1 ++ '.' :: d2))).toList = c1 :: (t1 ++ '.' :: d2) from rfl]
  rw [hmap]
  simp only [if_neg hcm, if_neg hcp, if_neg hne_inf, if_neg hne_nan, hpn, Option.map_some',
    decimalVal, List.map_cons]
  simp

/-- `float` accepts every negative decimal text `-digits.digits`. -/
theorem pyFloatOfString_decimal_neg (c1 : Char) (t1 d2 : List Char) (h2 : d2 ≠ [])
    (hd1 : ∀ c ∈ c1 :: t1, isDigitChar c = true) (hd2 : ∀ c ∈ d2, isDigitChar c = true) :
    pyFloatOfString (String.mk ('-' :: (c1 :: (t1 ++ '.' :: d2)))) =
      some (.finite (-decimalVal (c1 :: t1) d2)) := by
  have hc1 := hd1 c1 (List.mem_cons_self c1 t1)
  have hmap : (c1 :: (t1 ++ '.' :: d2)).map Char.toLower = c1 :: (t1 ++ '.' :: d2) := by
    refine map_toLower_fix _ ?_
    intro c hc
    rcases List.mem_cons.mp hc with hh | hh
    · exact Or.inl (hh ▸ hc1)
    · rcases List.mem_append.mp hh with hh | hh
      · exact Or.inl (hd1 c (List.mem_cons_of_mem c1 hh))
      · rcases List.mem_cons.mp hh with hh | hh
        · exact Or.inr (Or.inl hh)
        · exact Or.inl (hd2 c hh)
  have hne_inf : ¬(c1 :: (t1 ++ '.' :: d2) = ['i', 'n', 'f'] ∨
      c1 :: (t1 ++ '.' :: d2) = ['i', 'n', 'f', 'i', 'n', 'i', 't', 'y']) := by
    intro hh
    rcases hh with hh | hh <;>
    · rw [List.cons.injEq] at hh
      rw [hh.1] at hc1
      exact absurd hc1 (by decide)
  have hne_nan : ¬c1 :: (t1 ++ '.' :: d2) = ['n', 'a', 'n'] := by
    intro hh
    rw [List.cons.injEq] at hh
    rw [hh.1] at hc1
    exact absurd hc1 (by decide)
  have hpn := parseNumericChars_decimal (c1 :: t1) d2 (by simp) h2 hd1 hd2
  rw [List.cons_append] at hpn
  unfold pyFloatOfString
  rw [show (String.mk ('-' :: (c1 :: (t1 ++ '.' :: d2)))).toList
      = '-' :: (c1 :: (t1 ++ '.' :: d2)) from rfl]
  rw [List.map_cons, hmap]
  simp only [show Char.toLower '-' = '-' from by decide]
  simp only [reduceIte, if_neg hne_inf, if_neg hne_nan, hpn, Option.map_some',
    decimalVal, List.map_cons]

/-- The field parse accepts every unsigned decimal text, as a float. -/
theorem parseNum_decimal_pos (c1 : Char) (t1 d2 : List Char) (h2 : d2 ≠ [])
    (hd1 : ∀ c ∈ c1 :: t1, isDigitChar c = true) (hd2 : ∀ c ∈ d2, isDigitChar c = true) :
    parseNum (String.mk (c1 :: (t1 ++ '.' :: d2))) =
      some (.pyfloat (.finite (decimalVal (c1 :: t1) d2))) := by
  rw [parseNum, if_neg]
  · rw [pyFloatOfString_decimal_pos c1 t1 d2 h2 hd1 hd2]
    rfl
  · rw [show (String.mk (c1 :: (t1 ++ '.' :: d2))).toList = c1 :: (t1 ++ '.' :: d2) from rfl]
    have hp1 : pyIsdigit (c1 :: (t1 ++ '.' :: d2)) = false :=
      pyIsdigit_eq_false_of_mem _ '.' (by simp) (by decide)
    have hp2 : pyIsdigit (t1 ++ '.' :: d2) = false :=
      pyIsdigit_eq_false_of_mem _ '.' (by simp) (by decide)
    simp [hp1, hp2]

/-- The field parse accepts every negative decimal text, as a float. -/
theorem parseNum_decimal_neg (c1 : Char) (t1 d2 : List Char) (h2 : d2 ≠ [])
    (hd1 : ∀ c ∈ c1 :: t1, isDigitChar c = true) (hd2 : ∀ c ∈ d2, isDigitChar c = true) :
    parseNum (String.mk ('-' :: (c1 :: (t1 ++ '.' :: d2)))) =
      some (.pyfloat (.finite (-decimalVal (c1 :: t1) d2))) := by
  rw [parseNum, if_neg]
  · rw [pyFloatOfString_decimal_neg c1 t1 d2 h2 hd1 hd2]
    rfl
  · rw [show (String.mk ('-' :: (c1 :: (t1 ++ '.' :: d2)))).toList
        = '-' :: (c1 :: (t1 ++ '.' :: d2)) from rfl]
    have hp1 : pyIsdigit ('-' :: (c1 :: (t1 ++ '.' :: d2))) = false :=
      pyIsdigit_eq_false_of_mem _ '.' (by simp) (by decide)
    have hp2 : pyIsdigit (c1 :: (t1 ++ '.' :: d2)) = false :=
      pyIsdigit_eq_false_of_mem _ '.' (by simp) (by decide)
    simp [hp1, hp2]

/-! ## Claim C2 -/

/-- **C2**: a value stored by `add_coord` is integral (a Python `int`)
exactly when the field text is an optional leading minus sign followed
only by digits, and otherwise a float; the classification is per-field,
as the example `addCoordinate("p","Base","1.5","64","200")` shows:
`x == 1.5` stored fractional, `y == 64` and `z == 200` stored
integral. -/
theorem C2_per_field_numeric_kind :
    (∀ s v, parseNum s = some v → (isIntVal v = true ↔ OptMinusDigits s)) ∧
    add_coord [("p", emptyProfile)] (some "p") "Base" "1.5" "64" "200" =
      (.ok, [("p", .pydict [("seed", .pystr ""),
        ("coords", .pylist [.pydict [("name", .pystr "Base"),
          ("x", .pyfloat (.finite (decimalVal ['1'] ['5']))),
          ("y", .pyint 64), ("z", .pyint 200)]])])]) ∧
    decimalVal ['1'] ['5'] = 3 / 2 := by
  refine ⟨parseNum_int_iff, ?_, ?_⟩
  · rfl
  · norm_num [decimalVal, show digitsToNat [digitVal '1'] = 1 from by decide,
      show digitsToNat [digitVal '5'] = 5 from by decide]

/-- Witness for C2 at concrete inputs. -/
theorem C2_per_field_numeric_kind_witness :
    isIntVal (PyVal.pyint (strToInt "64")) = true ↔ OptMinusDigits "64" :=
  C2_per_field_numeric_kind.1 "64" (.pyint (strToInt "64")) rfl

/-! ## Claim C3 -/

/-- **C3**: the numeric parse of `add_coord` accepts every plain
integer text, negative integer text, and decimal text (signed or not);
it rejects the empty text and non-numeric text such as `"abc"`; and
whenever any field fails to parse, `add_coord` fails with
`InvalidNumber` and the dataset is unchanged — nothing is coerced to
zero or stored. -/
theorem C3_numeric_parse_totality :
    (∀ s, pyIsdigit s.toList = true → parseNum s = some (.pyint (strToInt s))) ∧
    (∀ s t, s.toList = '-' :: t → pyIsdigit t = true →
      parseNum s = some (.pyint (strToInt s))) ∧
    (∀ c1 t1 d2, d2 ≠ [] → (∀ c ∈ c1 :: t1, isDigitChar c = true) →
      (∀ c ∈ d2, isDigitChar c = true) →
      parseNum (String.mk (c1 :: (t1 ++ '.' :: d2))) =
        some (.pyfloat (.finite (decimalVal (c1 :: t1) d2))) ∧
      parseNum (String.mk ('-' :: (c1 :: (t1 ++ '.' :: d2)))) =
        some (.pyfloat (.finite (-decimalVal (c1 :: t1) d2)))) ∧
    parseNum "" = none ∧
    parseNum "abc" = none ∧
    (∀ (data : Dict) (p nameIn xIn yIn zIn : String), pyStrip nameIn ≠ "" →
      (parseNum (pyStrip xIn) = none ∨ parseNum (pyStrip yIn) = none ∨
        parseNum (pyStrip zIn) = none) →
      add_coord data (some p) nameIn xIn yIn zIn = (.invalidNumber, data)) := by
  refine ⟨parseNum_digits, parseNum_neg_digits, ?_, rfl, rfl, ?_⟩
  · intro c1 t1 d2 h2 hd1 hd2
    exact ⟨parseNum_decimal_pos c1 t1 d2 h2 hd1 hd2, parseNum_decimal_neg c1 t1 d2 h2 hd1 hd2⟩
  · intro data p nameIn xIn yIn zIn hname hnone
    cases hx : parseNum (pyStrip xIn) with
    | none => simp [add_coord, hname, hx]
    | some xv =>
      cases hy : parseNum (pyStrip yIn) with
      | none => simp [add_coord, hname, hx, hy]
      | some yv =>
        cases hz : parseNum (pyStrip zIn) with
        | none => simp [add_coord, hname, hx, hy, hz]
        | some zv =>
          rcases hnone with h | h | h
          · rw [h] at hx; exact Option.noConfusion hx
          · rw [h] at hy; exact Option.noConfusion hy
          · rw [h] at hz; exact Option.noConfusion hz

/-- Witness for C3 at concrete inputs. -/
theorem C3_numeric_parse_totality_witness :
    parseNum "405" = some (.pyint (strToInt "405")) ∧
    parseNum "-17" = some (.pyint (strToInt "-17")) ∧
    parseNum (String.mk ('1' :: ([] ++ '.' :: ['5']))) =
      some (.pyfloat (.finite (decimalVal ['1'] ['5']))) ∧
    add_coord [("p", emptyProfile)] (some "p") "Home" "abc" "0" "0" =
      (.invalidNumber, [("p", emptyProfile)]) :=
  ⟨C3_numeric_parse_totality.1 "405" (by decide),
   C3_numeric_parse_totality.2.1 "-17" ['1', '7'] rfl (by decide),
   (C3_numeric_parse_totality.2.2.1 '1' [] ['5'] (by simp) (by decide) (by decide)).1,
   C3_numeric_parse_totality.2.2.2.2.2 [("p", emptyProfile)] "p" "Home" "abc" "0" "0"
     (by decide) (Or.inl rfl)⟩

/-! ## Claim C7 -/

/-- **C7**: on any existing profile, `add_coord` with an empty
coordinate name fails with `EmptyName`, and with a non-numeric field
fails with `InvalidNumber`; in both cases the dataset is left entirely
unchanged. -/
theorem C7_add_coord_error_cases (data : Dict) (p : String)
    (hp : (dictLookup data p).isSome = true) :
    add_coord data (some p) "" "1" "2" "3" = (.emptyName, data) ∧
    add_coord data (some p) "Home" "abc" "0" "0" = (.invalidNumber, data) := by
  constructor
  · simp [add_coord, show pyStrip "" = "" from rfl]
  · simp [add_coord, show pyStrip "Home" ≠ "" from by decide,
      show parseNum (pyStrip "abc") = none from rfl]

/-- Witness for C7 on a one-profile dataset. -/
theorem C7_add_coord_error_cases_witness :
    add_coord [("p", emptyProfile)] (some "p") "" "1" "2" "3" =
      (.emptyName, [("p", emptyProfile)]) ∧
    add_coord [("p", emptyProfile)] (some "p") "Home" "abc" "0" "0" =
      (.invalidNumber, [("p", emptyProfile)]) :=
  C7_add_coord_error_cases [("p", emptyProfile)] "p" rfl

/-! ## Claim C1 -/

/-- **C1, counterexample**: the claim says a name that trims to the
empty string fails with `DuplicateName`.  In the source the emptiness
check `if not name` runs BEFORE `name.strip()`, so the whitespace-only
input `" "` passes it, trims to `""`, and is inserted as a profile
named `""` — the call succeeds instead of failing. -/
theorem C1_whitespace_name_inserted :
    pyStrip " " = "" ∧
    add_profile [] (some " ") = (.ok, [("", emptyProfile)]) ∧
    (add_profile [] (some " ")).1 ≠ Outcome.duplicateName :=
  ⟨rfl, rfl, by decide⟩

/-- **C1 (amended)**: `add_profile` returns silently (no error, no
insertion) when the raw input is cancelled or empty; fails with
`DuplicateName` when the trimmed name is already a key; otherwise
inserts `{seed: "", coords: []}` under the trimmed name — even when
that trimmed name is empty — after which the profile listing contains
the trimmed name exactly once. -/
theorem C1_create_profile (data : Dict) :
    add_profile data none = (.cancelled, data) ∧
    add_profile data (some "") = (.cancelled, data) ∧
    (∀ s, s ≠ "" → (dictLookup data (pyStrip s)).isSome = true →
      add_profile data (some s) = (.duplicateName, data)) ∧
    (∀ s, s ≠ "" → dictLookup data (pyStrip s) = none →
      add_profile data (some s) = (.ok, dictSet data (pyStrip s) emptyProfile) ∧
      List.count (pyStrip s) (listProfiles (dictSet data (pyStrip s) emptyProfile)) = 1) := by
  refine ⟨rfl, rfl, ?_, ?_⟩
  · intro s hs hdup
    simp [add_profile, hs, hdup]
  · intro s hs hnone
    constructor
    · simp [add_profile, hs, hnone]
    · rw [dictSet_of_lookup_none data (pyStrip s) emptyProfile hnone]
      rw [listProfiles]
      rw [(List.mergeSort_perm (((data ++ [(pyStrip s, emptyProfile)]).map Prod.fst))
        (fun a b => charsLe (strLower a) (strLower b))).count_eq]
      rw [List.map_append, List.count_append]
      have hnm : pyStrip s ∉ data.map Prod.fst :=
        (dictLookup_eq_none_iff data (pyStrip s)).mp hnone
      rw [List.count_eq_zero_of_not_mem hnm]
      simp

/-- Witness for the amended C1 on concrete inputs. -/
theorem C1_create_profile_witness :
    add_profile [] (some "bob") = (.ok, dictSet [] (pyStrip "bob") emptyProfile) ∧
    List.count (pyStrip "bob") (listProfiles (dictSet [] (pyStrip "bob") emptyProfile)) = 1 :=
  (C1_create_profile []).2.2.2 "bob" (by decide) rfl

/-! ## Claim C4 -/

/-- Is a value an integral, negative, or finite fractional number? -/
def isNumVal : PyVal → Bool
  | .pyint _ => true
  | .pyfloat (.finite _) => true
  | _ => false

/-- Within a coordinate dict, the `x`, `y`, `z` entries are numbers. -/
def coordEntryNumeric (kv : String × PyVal) : Bool :=
  if kv.1 = "x" ∨ kv.1 = "y" ∨ kv.1 = "z" then isNumVal kv.2 else true

/-- A coordinate's values are numbers. -/
def coordNumeric : PyVal → Bool
  | .pydict es => es.all coordEntryNumeric
  | _ => true

/-- All of a profile's coordinate values are numbers. -/
def profCoordsNumeric : PyVal → Bool
  | .pydict es =>
    match dictLookup es "coords" with
    | some (.pylist cs) => cs.all coordNumeric
    | _ => true
  | _ => true

/-- All coordinate values stored anywhere in the dataset are numbers. -/
def datasetCoordsNumeric (es : List (String × PyVal)) : Bool :=
  es.all fun kv => profCoordsNumeric kv.2

/-- **C4**: for every Dataset (a top-level dict) whose coordinate
values are integral, negative or fractional numbers, `save_data`
followed by `load_data` on the same path returns the very same
Dataset, with no load warning. -/
theorem C4_save_load_roundtrip (fs : FS) (es : List (String × PyVal)) (path : String)
    (hnum : datasetCoordsNumeric es = true) :
    load_data (save_data fs (.pydict es) path) path = (.ok, .pydict es) := by
  simp [load_data, save_data]

/-- Witness for C4: a dataset holding an integral, a negative and a
fractional coordinate value survives the round trip. -/
theorem C4_save_load_roundtrip_witness :
    load_data (save_data (fun _ => FileContent.missing)
      (.pydict [("p", .pydict [("seed", .pystr ""),
        ("coords", .pylist [.pydict [("name", .pystr "Base"),
          ("x", .pyint 100), ("y", .pyfloat (.finite (3 / 2))), ("z", .pyint (-200))]])])])
      "cords-data.json") "cords-data.json" =
    (.ok, .pydict [("p", .pydict [("seed", .pystr ""),
      ("coords", .pylist [.pydict [("name", .pystr "Base"),
        ("x", .pyint 100), ("y", .pyfloat (.finite (3 / 2))), ("z", .pyint (-200))]])])]) :=
  C4_save_load_roundtrip (fun _ => FileContent.missing) _ "cords-data.json" (by decide)

/-! ## Claim C8 -/

/-- **C8**: loading a nonexistent path yields an empty Dataset with no
error; loading a file whose JSON is an array (not an object) signals
the load warning and falls back to an empty Dataset. -/
theorem C8_load_error_handling :
    (∀ (fs : FS) (path : String), fs path = .missing →
      load_data fs path = (.ok, .pydict [])) ∧
    (∀ (fs : FS) (path : String) (xs : List PyVal), fs path = .json (.pylist xs) →
      load_data fs path = (.loadError, .pydict [])) := by
  constructor
  · intro fs path h
    simp [load_data, h]
  · intro fs path xs h
    simp [load_data, h]

/-- Witness for C8 on concrete file-system states. -/
theorem C8_load_error_handling_witness :
    load_data (fun _ => FileContent.missing) "cords-data.json" = (.ok, .pydict []) ∧
    load_data (fun _ => FileContent.json (.pylist [])) "cords-data.json" =
      (.loadError, .pydict []) :=
  ⟨C8_load_error_handling.1 (fun _ => FileContent.missing) "cords-data.json" rfl,
   C8_load_error_handling.2 (fun _ => FileContent.json (.pylist [])) "cords-data.json" [] rfl⟩

/-! ## Claim C5 -/

/-- **C5**: importing a top-level JSON object with the Merge choice
overlays the imported entries onto the existing Dataset (imported
entries win on name collision, entries only in the existing Dataset
are preserved); with the Replace choice the result is exactly the
imported document. -/
theorem C5_import_merge_replace (data : Dict) (nd : Dict)
    (hnd : (nd.map Prod.fst).Nodup) :
    (∀ k, dictLookup (import_json data (.pydict nd) true).2 k =
      (dictLookup nd k).or (dictLookup data k)) ∧
    import_json data (.pydict nd) false = (.ok, nd) ∧
    (import_json data (.pydict nd) true).1 = .ok := by
  refine ⟨?_, ?_, ?_⟩
  · intro k
    by_cases hd : data.isEmpty
    · have hdnil : data = [] := List.isEmpty_iff.mp hd
      subst hdnil
      cases h : dictLookup nd k <;> simp [import_json, dictLookup, Option.or, h]
    · simp [import_json, hd, dictLookup_dictUpdate data nd k hnd]
  · simp [import_json]
  · by_cases hd : data.isEmpty <;> simp [import_json, hd]

/-- Witness for C5: merging `{"p": new}` onto `{"p": old, "q": other}`
keeps `q` and replaces `p`. -/
theorem C5_import_merge_replace_witness :
    dictLookup (import_json [("p", .pystr "old"), ("q", .pystr "other")]
      (.pydict [("p", .pystr "new")]) true).2 "q" =
      (dictLookup [("p", .pystr "new")] "q").or
        (dictLookup [("p", .pystr "old"), ("q", .pystr "other")] "q") :=
  (C5_import_merge_replace [("p", .pystr "old"), ("q", .pystr "other")]
    [("p", .pystr "new")] (by decide)).1 "q"

/-! ## Claim C6 -/

/-- **C6**: `delete_selected_coord` fails (silently, per the source's
`if not profile: return` guard, labelled `NotFound` by the spec) when
no profile is selected; fails with `IndexOutOfRange` when the index is
not a valid position of the profile's coordinate list; and otherwise
removes exactly the entry at that index, shifting every later
coordinate down by one and preserving relative order. -/
theorem C6_delete_coord (data : Dict) (p : String) (es : List (String × PyVal))
    (cs : List PyVal) (idx : ℤ) (confirm : Bool)
    (hp : dictLookup data p = some (.pydict es))
    (hc : dictLookup es "coords" = some (.pylist cs)) :
    (∀ sel conf, delete_selected_coord data none sel conf = (.notFound, data)) ∧
    ((idx < 0 ∨ (cs.length : ℤ) ≤ idx) →
      delete_selected_coord data (some p) (some idx) confirm = (.indexOutOfRange, data)) ∧
    (∀ ns, 0 ≤ idx → idx < (cs.length : ℤ) → cs.get? idx.toNat = some (.pydict ns) →
      delete_selected_coord data (some p) (some idx) true =
        (.ok, dictSet data p (.pydict (dictSet es "coords"
          (.pylist (listPop cs idx.toNat))))) ∧
      (listPop cs idx.toNat).length = cs.length - 1 ∧
      (∀ j : ℕ, j < idx.toNat → (listPop cs idx.toNat)[j]? = cs[j]?) ∧
      (∀ j : ℕ, idx.toNat ≤ j → (listPop cs idx.toNat)[j]? = cs[j + 1]?)) := by
  refine ⟨fun sel conf => rfl, ?_, ?_⟩
  · intro hb
    simp [delete_selected_coord, hp, hc, hb]
  · intro ns h0 hlt hget
    have hb : ¬(idx < 0 ∨ (cs.length : ℤ) ≤ idx) := by omega
    have hidx : idx.toNat < cs.length := by omega
    rw [List.get?_eq_getElem?] at hget
    refine ⟨?_, ?_, ?_, ?_⟩
    · simp [delete_selected_coord, hp, hc, hb, hget]
    · rw [listPop, List.length_eraseIdx, if_pos hidx]
    · intro j hj
      rw [listPop, List.getElem?_eraseIdx_of_lt cs idx.toNat j hj]
    · intro j hj
      rw [listPop, List.getElem?_eraseIdx_of_ge cs idx.toNat j hj]

/-- Witness for C6: the spec's own example, `deleteCoordinate("p", 5)`
on a profile with 2 coordinates fails with `IndexOutOfRange`. -/
theorem C6_delete_coord_witness :
    delete_selected_coord
      [("p", .pydict [("seed", .pystr ""), ("coords", .pylist
        [.pydict [("name", .pystr "a")], .pydict [("name", .pystr "b")]])])]
      (some "p") (some 5) true =
      (.indexOutOfRange,
        [("p", .pydict [("seed", .pystr ""), ("coords", .pylist
          [.pydict [("name", .pystr "a")], .pydict [("name", .pystr "b")]])])]) :=
  (C6_delete_coord
    [("p", .pydict [("seed", .pystr ""), ("coords", .pylist
      [.pydict [("name", .pystr "a")], .pydict [("name", .pystr "b")]])])]
    "p" [("seed", .pystr ""), ("coords", .pylist
      [.pydict [("name", .pystr "a")], .pydict [("name", .pystr "b")]])]
    [.pydict [("name", .pystr "a")], .pydict [("name", .pystr "b")]]
    5 true rfl rfl).2.1 (by decide)

/-! ## Claim C10 -/

/-- **C10**: a successful `add_coord` on profile `p` changes only
`p`'s coords list, by appending exactly one entry at its end, and a
successful `delete_selected_coord` changes only `p`'s coords list; in
both cases `p`'s other entries (in particular its seed) and every
other profile are unchanged. -/
theorem C10_mutation_frame :
    (∀ (data : Dict) (p : String) es cs (nameIn xIn yIn zIn : String) xv yv zv,
      dictLookup data p = some (.pydict es) →
      dictLookup es "coords" = some (.pylist cs) →
      pyStrip nameIn ≠ "" →
      parseNum (pyStrip xIn) = some xv →
      parseNum (pyStrip yIn) = some yv →
      parseNum (pyStrip zIn) = some zv →
      add_coord data (some p) nameIn xIn yIn zIn = (.ok, dictSet data p
        (.pydict (dictSet es "coords"
          (.pylist (cs ++ [newCoord (pyStrip nameIn) xv yv zv]))))) ∧
      (∀ q, q ≠ p → dictLookup (dictSet data p
        (.pydict (dictSet es "coords"
          (.pylist (cs ++ [newCoord (pyStrip nameIn) xv yv zv]))))) q = dictLookup data q) ∧
      (∀ k, k ≠ "coords" → dictLookup (dictSet es "coords"
        (.pylist (cs ++ [newCoord (pyStrip nameIn) xv yv zv]))) k = dictLookup es k) ∧
      dictLookup (dictSet es "coords"
        (.pylist (cs ++ [newCoord (pyStrip nameIn) xv yv zv]))) "coords"
        = some (.pylist (cs ++ [newCoord (pyStrip nameIn) xv yv zv]))) ∧
    (∀ (data : Dict) (p : String) es cs (idx : ℤ) ns,
      dictLookup data p = some (.pydict es) →
      dictLookup es "coords" = some (.pylist cs) →
      0 ≤ idx → idx < (cs.length : ℤ) → cs.get? idx.toNat = some (.pydict ns) →
      delete_selected_coord data (some p) (some idx) true = (.ok, dictSet data p
        (.pydict (dictSet es "coords" (.pylist (listPop cs idx.toNat))))) ∧
      (∀ q, q ≠ p → dictLookup (dictSet data p
        (.pydict (dictSet es "coords" (.pylist (listPop cs idx.toNat))))) q
        = dictLookup data q) ∧
      (∀ k, k ≠ "coords" → dictLookup (dictSet es "coords"
        (.pylist (listPop cs idx.toNat))) k = dictLookup es k)) := by
  constructor
  · intro data p es cs nameIn xIn yIn zIn xv yv zv hp hc hn hx hy hz
    refine ⟨?_, ?_, ?_, ?_⟩
    · simp [add_coord, hn, hx, hy, hz, hp, hc]
    · intro q hq
      exact dictLookup_dictSet_ne data p _ q hq
    · intro k hk
      exact dictLookup_dictSet_ne es "coords" _ k hk
    · exact dictLookup_dictSet_self es "coords" _
  · intro data p es cs idx ns hp hc h0 hlt hget
    have hb : ¬(idx < 0 ∨ (cs.length : ℤ) ≤ idx) := by omega
    rw [List.get?_eq_getElem?] at hget
    refine ⟨?_, ?_, ?_⟩
    · simp [delete_selected_coord, hp, hc, hb, hget]
    · intro q hq
      exact dictLookup_dictSet_ne data p _ q hq
    · intro k hk
      exact dictLookup_dictSet_ne es "coords" _ k hk

/-- Witness for C10: appending to one of two profiles leaves the other
profile's entry and the seed untouched. -/
theorem C10_mutation_frame_witness :
    add_coord [("p", emptyProfile), ("q", .pystr "other")] (some "p") "Base" "1" "2" "3" =
      (.ok, dictSet [("p", emptyProfile), ("q", .pystr "other")] "p"
        (.pydict (dictSet [("seed", .pystr ""), ("coords", .pylist [])] "coords"
          (.pylist ([] ++ [newCoord (pyStrip "Base") (.pyint (strToInt (pyStrip "1")))
            (.pyint (strToInt (pyStrip "2"))) (.pyint (strToInt (pyStrip "3")))]))))) ∧
    dictLookup (dictSet [("p", emptyProfile), ("q", .pystr "other")] "p"
        (.pydict (dictSet [("seed", .pystr ""), ("coords", .pylist [])] "coords"
          (.pylist ([] ++ [newCoord (pyStrip "Base") (.pyint (strToInt (pyStrip "1")))
            (.pyint (strToInt (pyStrip "2"))) (.pyint (strToInt (pyStrip "3")))]))))) "q" =
      dictLookup [("p", emptyProfile), ("q", .pystr "other")] "q" :=
  ⟨(C10_mutation_frame.1 [("p", emptyProfile), ("q", .pystr "other")] "p"
      [("seed", .pystr ""), ("coords", .pylist [])] [] "Base" "1" "2" "3"
      (.pyint (strToInt (pyStrip "1"))) (.pyint (strToInt (pyStrip "2")))
      (.pyint (strToInt (pyStrip "3"))) rfl rfl (by decide) rfl rfl rfl).1,
   (C10_mutation_frame.1 [("p", emptyProfile), ("q", .pystr "other")] "p"
      [("seed", .pystr ""), ("coords", .pylist [])] [] "Base" "1" "2" "3"
      (.pyint (strToInt (pyStrip "1"))) (.pyint (strToInt (pyStrip "2")))
      (.pyint (strToInt (pyStrip "3"))) rfl rfl (by decide) rfl rfl rfl).2.1 "q" (by decide)⟩

/-! ## Claim C9 -/

/-- A Profile Store operation as invocable from the GUI. -/
inductive Op where
  | createProfile (input : Option String)
  | setSeed (sel : Option String) (seed : String)
  | addCoord (sel : Option String) (n x y z : String)
  | deleteCoord (sel : Option String) (idx : Option ℤ) (confirm : Bool)

/-- The dataset after running one operation, whatever its outcome. -/
def applyOp (d : Dict) : Op → Dict
  | .createProfile input => (add_profile d input).2
  | .setSeed sel seed => (save_seed d sel seed).2
  | .addCoord sel n x y z => (add_coord d sel n x y z).2
  | .deleteCoord sel idx confirm => (delete_selected_coord d sel idx confirm).2

/-- A stored coordinate's name (when it is a dict with a string
`name` entry) is non-empty. -/
def coordNameOk : PyVal → Bool
  | .pydict es =>
    match dictLookup es "name" with
    | some (.pystr s) => decide (s ≠ "")
    | _ => true
  | _ => true

/-- All coordinate names stored in a profile are non-empty. -/
def profNamesOk : PyVal → Bool
  | .pydict es =>
    match dictLookup es "coords" with
    | some (.pylist cs) => cs.all coordNameOk
    | _ => true
  | _ => true

/-- All coordinate names stored anywhere in the dataset are non-empty. -/
def dataNamesOk (d : Dict) : Bool :=
  d.all fun kv => profNamesOk kv.2

theorem dataNamesOk_dictSet (d : Dict) (k : String) (v : PyVal)
    (hd : dataNamesOk d = true) (hv : profNamesOk v = true) :
    dataNamesOk (dictSet d k v) = true := by
  rw [dataNamesOk, List.all_eq_true]
  intro kv hkv
  rcases mem_of_mem_dictSet d k v kv hkv with h | h
  · exact List.all_eq_true.mp hd kv h
  · rw [h]
    exact hv

theorem add_profile_preserves_names (d : Dict) (input : Option String)
    (hd : dataNamesOk d = true) : dataNamesOk (add_profile d input).2 = true := by
  match input with
  | none => exact hd
  | some s =>
    by_cases hs : s = ""
    · simp [add_profile, hs, hd]
    · by_cases hl : (dictLookup d (pyStrip s)).isSome = true
      · simp [add_profile, hs, hl, hd]
      · have hres : (add_profile d (some s)).2 = dictSet d (pyStrip s) emptyProfile := by
          simp [add_profile, hs, hl]
        rw [hres]
        exact dataNamesOk_dictSet d _ _ hd (by decide)

theorem save_seed_preserves_names (d : Dict) (sel : Option String) (seed : String)
    (hd : dataNamesOk d = true) : dataNamesOk (save_seed d sel seed).2 = true := by
  match sel with
  | none => exact hd
  | some p =>
    cases hp : dictLookup d p with
    | none => simp [save_seed, hp, hd]
    | some v =>
      cases v with
      | pynone => simp [save_seed, hp, hd]
      | pybool b => simp [save_seed, hp, hd]
      | pyint n => simp [save_seed, hp, hd]
      | pyfloat f => simp [save_seed, hp, hd]
      | pystr s => simp [save_seed, hp, hd]
      | pylist xs => simp [save_seed, hp, hd]
      | pydict es =>
        have hres : (save_seed d (some p) seed).2 =
            dictSet d p (.pydict (dictSet es "seed" (.pystr (pyStrip seed)))) := by
          simp [save_seed, hp]
        rw [hres]
        have hv : profNamesOk (.pydict es) = true :=
          List.all_eq_true.mp hd (p, .pydict es) (dictLookup_mem d p _ hp)
        have hv2 : profNamesOk (.pydict (dictSet es "seed" (.pystr (pyStrip seed)))) = true := by
          simp only [profNamesOk] at hv ⊢
          rw [dictLookup_dictSet_ne es "seed" _ "coords" (by decide)]
          exact hv
        exact dataNamesOk_dictSet d p _ hd hv2

theorem add_coord_preserves_names (d : Dict) (sel : Option String) (n x y z : String)
    (hd : dataNamesOk d = true) : dataNamesOk (add_coord d sel n x y z).2 = true := by
  match sel with
  | none => exact hd
  | some p =>
    by_cases hn : pyStrip n = ""
    · simp [add_coord, hn, hd]
    · cases hx : parseNum (pyStrip x) with
      | none => simp [add_coord, hn, hx, hd]
      | some xv =>
        cases hy : parseNum (pyStrip y) with
        | none => simp [add_coord, hn, hx, hy, hd]
        | some yv =>
          cases hz : parseNum (pyStrip z) with
          | none => simp [add_coord, hn, hx, hy, hz, hd]
          | some zv =>
            cases hp : dictLookup d p with
            | none => simp [add_coord, hn, hx, hy, hz, hp, hd]
            | some v =>
              cases v with
              | pynone => simp [add_coord, hn, hx, hy, hz, hp, hd]
              | pybool b => simp [add_coord, hn, hx, hy, hz, hp, hd]
              | pyint nn => simp [add_coord, hn, hx, hy, hz, hp, hd]
              | pyfloat f => simp [add_coord, hn, hx, hy, hz, hp, hd]
              | pystr ss => simp [add_coord, hn, hx, hy, hz, hp, hd]
              | pylist xs => simp [add_coord, hn, hx, hy, hz, hp, hd]
              | pydict es =>
                cases hc : dictLookup es "coords" with
                | none => simp [add_coord, hn, hx, hy, hz, hp, hc, hd]
                | some cv =>
                  cases cv with
                  | pynone => simp [add_coord, hn, hx, hy, hz, hp, hc, hd]
                  | pybool b => simp [add_coord, hn, hx, hy, hz, hp, hc, hd]
                  | pyint nn => simp [add_coord, hn, hx, hy, hz, hp, hc, hd]
                  | pyfloat f => simp [add_coord, hn, hx, hy, hz, hp, hc, hd]
                  | pystr ss => simp [add_coord, hn, hx, hy, hz, hp, hc, hd]
                  | pydict es2 => simp [add_coord, hn, hx, hy, hz, hp, hc, hd]
                  | pylist cs =>
                    have hres : (add_coord d (some p) n x y z).2 =
                        dictSet d p (.pydict (dictSet es "coords"
                          (.pylist (cs ++ [newCoord (pyStrip n) xv yv zv])))) := by
                      simp [add_coord, hn, hx, hy, hz, hp, hc]
                    rw [hres]
                    have hprof : profNamesOk (.pydict es) = true :=
                      List.all_eq_true.mp hd (p, .pydict es) (dictLookup_mem d p _ hp)
                    have hcs : cs.all coordNameOk = true := by
                      simp only [profNamesOk, hc] at hprof
                      exact hprof
                    have hnew : coordNameOk (newCoord (pyStrip n) xv yv zv) = true := by
                      simp [coordNameOk, newCoord, dictLookup, hn]
                    have hprof2 : profNamesOk (.pydict (dictSet es "coords"
                        (.pylist (cs ++ [newCoord (pyStrip n) xv yv zv])))) = true := by
                      simp only [profNamesOk, dictLookup_dictSet_self, List.all_append]
                      simp [hcs, hnew]
                    exact dataNamesOk_dictSet d p _ hd hprof2

theorem delete_coord_preserves_names (d : Dict) (sel : Option String) (idx : Option ℤ)
    (confirm : Bool) (hd : dataNamesOk d = true) :
    dataNamesOk (delete_selected_coord d sel idx confirm).2 = true := by
  match sel with
  | none => exact hd
  | some p =>
    match idx with
    | none => exact hd
    | some i =>
      cases hp : dictLookup d p with
      | none => simp [delete_selected_coord, hp, hd]
      | some v =>
        cases v with
        | pynone => simp [delete_selected_coord, hp, hd]
        | pybool b => simp [delete_selected_coord, hp, hd]
        | pyint nn => simp [delete_selected_coord, hp, hd]
        | pyfloat f => simp [delete_selected_coord, hp, hd]
        | pystr ss => simp [delete_selected_coord, hp, hd]
        | pylist xs => simp [delete_selected_coord, hp, hd]
        | pydict es =>
          cases hc : dictLookup es "coords" with
          | none => simp [delete_selected_coord, hp, hc, hd]
          | some cv =>
            cases cv with
            | pynone => simp [delete_selected_coord, hp, hc, hd]
            | pybool b => simp [delete_selected_coord, hp, hc, hd]
            | pyint nn => simp [delete_selected_coord, hp, hc, hd]
            | pyfloat f => simp [delete_selected_coord, hp, hc, hd]
            | pystr ss => simp [delete_selected_coord, hp, hc, hd]
            | pydict es2 => simp [delete_selected_coord, hp, hc, hd]
            | pylist cs =>
              by_cases hb : i < 0 ∨ (cs.length : ℤ) ≤ i
              · simp [delete_selected_coord, hp, hc, hb, hd]
              · cases hg : cs[i.toNat]? with
                | none => simp [delete_selected_coord, hp, hc, hb, hg, hd]
                | some cv2 =>
                  cases cv2 with
                  | pynone => simp [delete_selected_coord, hp, hc, hb, hg, hd]
                  | pybool b => simp [delete_selected_coord, hp, hc, hb, hg, hd]
                  | pyint nn => simp [delete_selected_coord, hp, hc, hb, hg, hd]
                  | pyfloat f => simp [delete_selected_coord, hp, hc, hb, hg, hd]
                  | pystr ss => simp [delete_selected_coord, hp, hc, hb, hg, hd]
                  | pylist xs => simp [delete_selected_coord, hp, hc, hb, hg, hd]
                  | pydict ns =>
                    cases confirm with
                    | false => simp [delete_selected_coord, hp, hc, hb, hg, hd]
                    | true =>
                      have hres : (delete_selected_coord d (some p) (some i) true).2 =
                          dictSet d p (.pydict (dictSet es "coords"
                            (.pylist (listPop cs i.toNat)))) := by
                        simp [delete_selected_coord, hp, hc, hb, hg]
                      rw [hres]
                      have hprof : profNamesOk (.pydict es) = true :=
                        List.all_eq_true.mp hd (p, .pydict es) (dictLookup_mem d p _ hp)
                      have hcs : cs.all coordNameOk = true := by
                        simp only [profNamesOk, hc] at hprof
                        exact hprof
                      have hall2 : (listPop cs i.toNat).all coordNameOk = true := by
                        rw [List.all_eq_true]
                        intro e he
                        exact List.all_eq_true.mp hcs e (List.mem_of_mem_eraseIdx he)
                      have hprof2 : profNamesOk (.pydict (dictSet es "coords"
                          (.pylist (listPop cs i.toNat)))) = true := by
                        simp only [profNamesOk, dictLookup_dictSet_self]
                        exact hall2
                      exact dataNamesOk_dictSet d p _ hd hprof2

/-- **C9**: starting from any dataset whose stored coordinate names
are all non-empty, any sequence of createProfile, setSeed,
addCoordinate and deleteCoordinate operations leaves a dataset whose
stored coordinate names are all non-empty (`add_coord` trims the name
and refuses to store an empty one). -/
theorem C9_names_invariant (d : Dict) (ops : List Op)
    (hd : dataNamesOk d = true) :
    dataNamesOk (ops.foldl applyOp d) = true := by
  induction ops generalizing d with
  | nil => exact hd
  | cons op t ih =>
    rw [List.foldl_cons]
    refine ih (applyOp d op) ?_
    cases op with
    | createProfile input => exact add_profile_preserves_names d input hd
    | setSeed sel seed => exact save_seed_preserves_names d sel seed hd
    | addCoord sel n x y z => exact add_coord_preserves_names d sel n x y z hd
    | deleteCoord sel idx confirm => exact delete_coord_preserves_names d sel idx confirm hd

/-- Witness for C9: a concrete operation sequence from the empty
dataset keeps the invariant. -/
theorem C9_names_invariant_witness :
    dataNamesOk ([Op.createProfile (some "p"),
      Op.addCoord (some "p") "Base" "1" "2" "3",
      Op.deleteCoord (some "p") (some 0) true].foldl applyOp []) = true :=
  C9_names_invariant [] [Op.createProfile (some "p"),
    Op.addCoord (some "p") "Base" "1" "2" "3",
    Op.deleteCoord (some "p") (some 0) true] rfl
